import Mathlib

/-!
Verification of the ZPS141 compiler pipeline (`zps_compilador.py`).

The script reconciles a master spreadsheet (`BANCO.xlsx`) with a daily delta
file (`BUSCA ZPS141 - DD.MM.AAAA`): it selects the most recent delta by the
date embedded in the file name, filters master data rows by a prefix test on
column 13, extracts region B6:AJ from the delta, appends it to the master
(widening the master when the delta is wider), removes duplicate data rows
ignoring columns 0, 2, 3 and 20, and saves the result.

Cells are modelled as text, integer number, or the empty/NaN marker.  Tables
read by `pd.read_excel(..., header=None)` are rectangular grids with
positional columns `0..width-1`; these are modelled by `Table`.  After the
append step the pandas frame can carry non-contiguous integer column labels,
so the merged frame is modelled by `DF`, which carries an explicit label
list.
-/

/-- A spreadsheet cell as pandas sees it: a text value, a numeric value
(modelled as an integer with decimal rendering), or the missing-value marker
(`NaN` / `pd.NA`). -/
inductive Cell where
  | empty : Cell
  | text : String → Cell
  | num : Int → Cell
deriving DecidableEq, Repr

/-- A rectangular grid as produced by `pd.read_excel(..., header=None)`:
rows of cells with positional column labels `0..width-1`.  `width` is
`df.shape[1]`; every row of a pandas frame has exactly `width` cells
(missing entries are `NaN`, i.e. `Cell.empty`). -/
structure Table where
  rows : List (List Cell)
  width : Nat
deriving DecidableEq, Repr

/-- A pandas DataFrame with explicit integer column labels.  `rows` are
positionally parallel to `cols`.  Needed because the widening loop in the
append step can produce non-contiguous labels. -/
structure DF where
  cols : List Nat
  rows : List (List Cell)
deriving DecidableEq, Repr

/-- A Drive file descriptor as returned by `files().list`: the code reads
only `name`; `id` and `modifiedTime` are opaque. -/
structure FileDesc where
  id : String
  name : String
  modifiedTime : String
deriving DecidableEq, Repr

/-- A calendar date, as produced by `datetime.strptime(s, "%d.%m.%Y")`. -/
structure Date where
  year : Nat
  month : Nat
  day : Nat
deriving DecidableEq, Repr

/-- `datetime` comparison on dates: lexicographic by year, month, day. -/
def Date.lt (a b : Date) : Bool :=
  decide (a.year < b.year) ||
    (decide (a.year = b.year) &&
      (decide (a.month < b.month) ||
        (decide (a.month = b.month) && decide (a.day < b.day))))

/-- Python `str.startswith`: prefix test on the character sequence. -/
def pyStartsWith (s p : String) : Bool :=
  p.data.isPrefixOf s.data

/-- Characters stripped by Python `str.strip()` (ASCII whitespace). -/
def pyIsSpace (c : Char) : Bool :=
  c = ' ' || c = '\t' || c = '\n' || c = '\r' || c = '\x0b' || c = '\x0c'

/-- Python `str.strip()` on a character list. -/
def pyStripList (cs : List Char) : List Char :=
  ((cs.dropWhile pyIsSpace).reverse.dropWhile pyIsSpace).reverse

/-- Split a character list at every `'.'`, like Python `"%d.%m.%Y"` regex
anchoring does for the two separator dots (and like `str.split('.')`). -/
def splitOnDot : List Char → List (List Char)
  | [] => [[]]
  | c :: cs =>
    match splitOnDot cs with
    | [] => [[]]
    | p :: ps => if c = '.' then [] :: p :: ps else (c :: p) :: ps

/-- The numeric value of a decimal digit character, if it is one. -/
def charDigit? (c : Char) : Option Nat :=
  if '0' ≤ c && c ≤ '9' then some (c.toNat - '0'.toNat) else none

/-- Decimal value of an all-digit, non-empty character list (the value
`int()` gives to a group captured by `strptime`'s digit patterns); `none`
when the list is empty or contains a non-digit. -/
def digitsToNat : List Char → Option Nat
  | [] => none
  | cs => cs.foldl (fun acc c =>
      match acc, charDigit? c with
      | some a, some d => some (a * 10 + d)
      | _, _ => none) (some 0)

/-- Gregorian leap-year rule used by `datetime`. -/
def anoBissexto (y : Nat) : Bool :=
  y % 4 == 0 && (y % 100 != 0 || y % 400 == 0)

/-- Number of days of month `m` in year `y` (`datetime` validation). -/
def diasNoMes (y m : Nat) : Nat :=
  if m == 2 then (if anoBissexto y then 29 else 28)
  else if m == 4 || m == 6 || m == 9 || m == 11 then 30
  else 31

/-- `datetime.strptime(s, "%d.%m.%Y")` as a total function: the whole string
must be day `.` month `.` year where the day group is 1-2 digits with value
1..31, the month group is 1-2 digits with value 1..12, the year group is
exactly 4 digits, and the resulting date must be valid (`datetime` range
checks: year at least 1, day at most the month length). -/
def parseDataList (cs : List Char) : Option Date :=
  match splitOnDot cs with
  | [ds, ms, ys] =>
    match digitsToNat ds, digitsToNat ms, digitsToNat ys with
    | some d, some m, some y =>
      if ds.length ≤ 2 && ms.length ≤ 2 && ys.length == 4 &&
          1 ≤ d && 1 ≤ m && m ≤ 12 && 1 ≤ y && d ≤ diasNoMes y m then
        some ⟨y, m, d⟩
      else none
    | _, _, _ => none
  | _ => none

/-- The per-candidate test of `encontrar_busca_mais_recente` (lines
123-132): require `nome.startswith(prefixo)`, strip the remainder
(`nome[len(prefixo):].strip()`), take its first 10 characters and parse
them with `strptime("%d.%m.%Y")`; `none` models both a failed prefix test
and a `ValueError` (which the code silently skips). -/
def candDate (prefixo nome : String) : Option Date :=
  if pyStartsWith nome prefixo then
    parseDataList ((pyStripList (nome.data.drop prefixo.data.length)).take 10)
  else none

/-- The accumulator loop of `encontrar_busca_mais_recente`: state is the
best candidate so far with its date; a newly parsed date replaces the state
only when strictly greater (`dt > data_mais_recente`). -/
def encontrarGo (prefixo : String) : List FileDesc → Option (FileDesc × Date) → Option FileDesc
  | [], acc => acc.map Prod.fst
  | f :: rest, acc =>
    match candDate prefixo f.name with
    | none => encontrarGo prefixo rest acc
    | some d =>
      match acc with
      | none => encontrarGo prefixo rest (some (f, d))
      | some (g, dg) =>
        if Date.lt dg d then encontrarGo prefixo rest (some (f, d))
        else encontrarGo prefixo rest (some (g, dg))

/-- `encontrar_busca_mais_recente(arquivos, prefixo)` (lines 114-138). -/
def encontrar_busca_mais_recente (arquivos : List FileDesc) (prefixo : String) : Option FileDesc :=
  encontrarGo prefixo arquivos none

/-- `BUSCA_PREFIX` from the configuration block. -/
def BUSCA_PREFIX : String := "BUSCA ZPS141 - "

/-- `HEADER_ROWS_BANCO` from the configuration block. -/
def HEADER_ROWS_BANCO : Nat := 1

/-- `astype(str)` rendering of a cell: `NaN` renders as `"nan"`, numbers by
their decimal representation, text unchanged. -/
def pyCellStr : Cell → String
  | Cell.empty => "nan"
  | Cell.text s => s
  | Cell.num n => toString n

/-- Textual coercion as the spec's section 4.2 words it: absent/null cells
coerce to the empty string, other cells to their textual representation. -/
def specCellStr : Cell → String
  | Cell.empty => ""
  | Cell.text s => s
  | Cell.num n => toString n

/-- The row-filter stage (lines 239-252).  The code first checks
`df_banco.shape[1] <= 13`; this function is the success path: split off
`HEADER_ROWS_BANCO` header rows, keep the data rows whose column-13 value,
rendered by `astype(str)`, starts with `"Y"`
(`colN.str.startswith("Y", na=False)`; after `astype(str)` no `NaN`
remains, missing cells having become the string `"nan"`), and report the
number of removed rows (`(~mask_keep).sum()`).  The second component is
that count. -/
def filtrarBanco (T : Table) : Table × Nat :=
  let header := T.rows.take HEADER_ROWS_BANCO
  let dados := T.rows.drop HEADER_ROWS_BANCO
  let keep := fun (r : List Cell) => pyStartsWith (pyCellStr (r.getD 13 Cell.empty)) "Y"
  (⟨header ++ dados.filter keep, T.width⟩,
   (dados.filter (fun r => !(keep r))).length)

/-- `.replace("", pd.NA)` on one cell: the empty-string text cell becomes
the missing-value marker, all other cells are unchanged. -/
def normCell (c : Cell) : Cell :=
  if c = Cell.text "" then Cell.empty else c

/-- The sliced and normalised region `df_hoje.iloc[5:, 1:36].replace("", pd.NA)`
(lines 259-261): rows from index 5 on, columns 1..35, with empty-string
cells replaced by the missing marker. -/
def regiaoHoje (T : Table) : List (List Cell) :=
  (T.rows.drop 5).map (fun r => ((r.drop 1).take 35).map normCell)

/-- The column-range extraction stage (lines 259-262): slice B6:AJ,
replace `""` by `pd.NA`, and drop the rows whose every cell is missing
(`~dados_hoje.isna().all(axis=1)`).  The resulting width is
`min 35 (width - 1)`, the number of columns `iloc[:, 1:36]` selects.
Note that a zero-width frame has every row dropped (`all` over an empty
axis is true). -/
def extrairHoje (T : Table) : Table :=
  ⟨(regiaoHoje T).filter (fun r => !(r.all (· == Cell.empty))),
   min 35 (T.width - 1)⟩

/-- The append stage (lines 267-277) on pandas column labels.  If the delta
frame is empty (`dados_hoje.empty`: zero rows or zero columns) nothing
happens.  Otherwise the delta columns are relabelled `0..dW-1`, and when
the master is narrower the loop `df_banco[df_banco.shape[1] + i] = pd.NA`
(for `i` in `range(extra)`) appends `extra` new all-missing columns; since
`shape[1]` grows by one per iteration, the label created at iteration `i`
is `W0 + 2*i`, so the added labels are non-contiguous whenever
`extra >= 2`.  `pd.concat` then aligns by label with an outer join,
producing the master's labels followed by the delta labels not already
present (`sort=False` keeps order of appearance); a frame contributes the
missing marker at labels it does not have. -/
def appendBlock (banco hoje : Table) : DF :=
  if hoje.rows.isEmpty || hoje.width == 0 then
    ⟨List.range banco.width, banco.rows⟩
  else
    let W0 := banco.width
    let dW := hoje.width
    let bancoCols :=
      if W0 < dW then List.range W0 ++ (List.range (dW - W0)).map (fun i => W0 + 2 * i)
      else List.range W0
    let cols := bancoCols ++ (List.range dW).filter (fun l => !(bancoCols.contains l))
    ⟨cols,
     banco.rows.map (fun r => cols.map (fun l => if l < W0 then r.getD l Cell.empty else Cell.empty))
       ++ hoje.rows.map (fun r => cols.map (fun l => r.getD l Cell.empty))⟩

/-- The column labels excluded from the deduplication identity
(`subset = [c for c in colunas_todas if c not in (0, 2, 3, 20)]`). -/
def EXCLUIDAS : List Nat := [0, 2, 3, 20]

/-- The `drop_duplicates` identity key of a data row: the cell values at
the non-excluded column labels, in column order. -/
def chaveDF (cols : List Nat) (r : List Cell) : List Cell :=
  ((cols.zip r).filter (fun p => !(EXCLUIDAS.contains p.1))).map Prod.snd

/-- First-occurrence deduplication (`drop_duplicates(keep="first")`):
a row is kept iff its key has not been seen before. -/
def dedupGo (key : List Cell → List Cell) : List (List Cell) → List (List Cell) → List (List Cell)
  | _, [] => []
  | seen, r :: rs =>
    if key r ∈ seen then dedupGo key seen rs
    else r :: dedupGo key (key r :: seen) rs

/-- The deduplication stage (lines 283-299): split off the header row; if
the data frame is empty (zero rows or zero columns) the table is left
unchanged; otherwise `drop_duplicates(subset=subset, keep="first")` keeps
the first row of each identity-key class.  pandas raises a `ValueError`
when `subset` is the empty list (every column label excluded), modelled by
`none`. -/
def dedupDF (D : DF) : Option DF :=
  let header := D.rows.take HEADER_ROWS_BANCO
  let dados := D.rows.drop HEADER_ROWS_BANCO
  if dados.isEmpty || D.cols.isEmpty then some D
  else
    let subset := D.cols.filter (fun l => !(EXCLUIDAS.contains l))
    if subset.isEmpty then none
    else some ⟨D.cols, header ++ dedupGo (chaveDF D.cols) [] dados⟩

/-- The error message raised when the master lacks column 13 (line 240). -/
def msgColunaN : String :=
  "BANCO não possui coluna N (índice 13). Verifique a estrutura do BANCO.xlsx."

/-- The error modelling the pandas `ValueError` from an empty dedup subset. -/
def msgSubsetVazio : String := "ValueError: not enough values to unpack"

/-- The in-memory pipeline of `main` after both tables are loaded (lines
239-299): schema check on the master, row filter, region extraction,
append, deduplication.  Any error aborts the run before the save. -/
def runPipeline (banco hoje : Table) : Except String DF :=
  if banco.width ≤ 13 then Except.error msgColunaN
  else
    match dedupDF (appendBlock (filtrarBanco banco).1 (extrairHoje hoje)) with
    | some d => Except.ok d
    | none => Except.error msgSubsetVazio

/-- The table handed to `atualizar_arquivo_excel` (line 303): the save
happens only when the whole pipeline succeeded. -/
def savedTable (banco hoje : Table) : Option DF :=
  (runPipeline banco hoje).toOption

/-- Modelled from the spec: the per-candidate validity test exactly as
claim C4 words it, with no whitespace stripping of the remainder — used
only to compare the claim's wording against `candDate`. -/
def claimCandDateC4 (prefixo nome : String) : Option Date :=
  if pyStartsWith nome prefixo then
    parseDataList ((nome.data.drop prefixo.data.length).take 10)
  else none

/-- Modelled from the spec: the deduplication identity key as claim C1
words it — the cell values at the non-excluded labels after the textual
coercion of section 4.2 — used only to compare the claim's wording against
the value-based key `chaveDF`. -/
def claimChaveC1 (cols : List Nat) (r : List Cell) : List String :=
  (((cols.zip r).filter (fun p => !(EXCLUIDAS.contains p.1))).map Prod.snd).map specCellStr

/-- C5 example candidate: the older dated file. -/
def arquivoC5a : FileDesc := ⟨"id-a", "BUSCA ZPS141 - 01.03.2024", "t1"⟩

/-- C5 example candidate: the most recent dated file. -/
def arquivoC5b : FileDesc := ⟨"id-b", "BUSCA ZPS141 - 15.03.2024", "t2"⟩

/-- C5 example candidate: a file not matching the prefix. -/
def arquivoC5c : FileDesc := ⟨"id-c", "other.xlsx", "t3"⟩

/-- A candidate whose remainder after the prefix has a leading space: the
code strips it and accepts the name, the claim's reading (no strip) does
not parse it. -/
def arquivoC4 : FileDesc := ⟨"id-d", "BUSCA ZPS141 -  01.03.2024", "t4"⟩

/-- A candidate that does not match the prefix at all. -/
def arquivoC4inv : FileDesc := ⟨"id-e", "outro.xlsx", "t5"⟩

/-- A data row whose cell at column 1 is the number 1. -/
def linhaC1num : List Cell :=
  [Cell.text "a", Cell.num 1, Cell.text "a", Cell.text "a", Cell.text "a"]

/-- A data row whose cell at column 1 is the text "1". -/
def linhaC1txt : List Cell :=
  [Cell.text "a", Cell.text "1", Cell.text "a", Cell.text "a", Cell.text "a"]

/-- A 5-column frame whose two data rows coincide everywhere except that
one holds the number 1 and the other the text "1" at column 1 (a
non-excluded column). -/
def dfC1 : DF :=
  ⟨[0, 1, 2, 3, 4],
   [[Cell.text "hdr", Cell.text "hdr", Cell.text "hdr", Cell.text "hdr", Cell.text "hdr"],
    linhaC1num, linhaC1txt]⟩

/-- A small frame with one repeated data row, for exercising dedup. -/
def dfC7 : DF :=
  ⟨[0, 1],
   [[Cell.text "h", Cell.text "h"],
    [Cell.text "a", Cell.text "b"],
    [Cell.text "a", Cell.text "b"],
    [Cell.text "c", Cell.text "d"]]⟩

/-- The deduplicated form of `dfC7`. -/
def dfC7res : DF :=
  ⟨[0, 1],
   [[Cell.text "h", Cell.text "h"],
    [Cell.text "a", Cell.text "b"],
    [Cell.text "c", Cell.text "d"]]⟩

/-- A 3-column master table with one row. -/
def tabelaC3Master : Table := ⟨[[Cell.text "a", Cell.text "b", Cell.text "c"]], 3⟩

/-- A 5-column delta table with one row. -/
def tabelaC3Delta : Table :=
  ⟨[[Cell.text "d", Cell.text "e", Cell.text "f", Cell.text "g", Cell.text "h"]], 5⟩

/-- A filtered master with exactly 14 columns (the minimum the schema check
admits). -/
def tabelaC10Banco : Table := ⟨[List.replicate 14 (Cell.text "h")], 14⟩

/-- A daily file with 36 columns and one non-blank row after the offset,
so that the extracted delta has the full 35 columns. -/
def tabelaC10Hoje : Table :=
  ⟨List.replicate 5 (List.replicate 36 Cell.empty) ++ [List.replicate 36 (Cell.text "v")], 36⟩

/-- A 14-column master with one header row and one data row whose column-13
value starts with "Y". -/
def linhaC9 : List Cell := List.replicate 13 (Cell.text "x") ++ [Cell.text "Y1"]

/-- Master table fixture for the filter claims. -/
def tabelaC9 : Table := ⟨[List.replicate 14 (Cell.text "h"), linhaC9], 14⟩

/-- A daily-file fixture: five offset rows, then one row with a non-blank
cell in the extracted range. -/
def tabelaC6 : Table :=
  ⟨List.replicate 5 ([] : List Cell) ++ [[Cell.text "x", Cell.text "y"]], 2⟩

theorem Date.lt_iff (a b : Date) :
    Date.lt a b = true ↔
      (a.year < b.year ∨ (a.year = b.year ∧
        (a.month < b.month ∨ (a.month = b.month ∧ a.day < b.day)))) := by
  simp [Date.lt]

theorem Date.lt_eq_false_iff (a b : Date) :
    Date.lt a b = false ↔
      ¬(a.year < b.year ∨ (a.year = b.year ∧
        (a.month < b.month ∨ (a.month = b.month ∧ a.day < b.day)))) := by
  rw [← Date.lt_iff]
  cases Date.lt a b <;> simp

theorem Date.lt_asymm {a b : Date} (h : Date.lt a b = true) : Date.lt b a = false := by
  rw [Date.lt_iff] at h
  rw [Date.lt_eq_false_iff]
  omega

theorem Date.lt_irrefl (a : Date) : Date.lt a a = false := by
  rw [Date.lt_eq_false_iff]
  omega

theorem Date.lt_trans {a b c : Date} (h1 : Date.lt a b = true) (h2 : Date.lt b c = true) :
    Date.lt a c = true := by
  rw [Date.lt_iff] at h1 h2 ⊢
  omega

theorem Date.not_lt_lt {a b c : Date} (h1 : Date.lt b a = false) (h2 : Date.lt b c = true) :
    Date.lt a c = true := by
  rw [Date.lt_eq_false_iff] at h1
  rw [Date.lt_iff] at h2 ⊢
  omega

theorem dedupGo_cons (key : List Cell → List Cell) (seen : List (List Cell))
    (r : List Cell) (rs : List (List Cell)) (h : key r ∉ seen) :
    dedupGo key seen (r :: rs) = r :: dedupGo key (key r :: seen) rs := by
  simp [dedupGo, h]

theorem dedupGo_idem (key : List Cell → List Cell) :
    ∀ (l seen : List (List Cell)), dedupGo key seen (dedupGo key seen l) = dedupGo key seen l := by
  intro l
  induction l with
  | nil => intro seen; simp [dedupGo]
  | cons r rs ih =>
    intro seen
    by_cases h : key r ∈ seen
    · simp [dedupGo, h, ih]
    · simp only [dedupGo_cons key seen r rs h]
      rw [dedupGo_cons key seen r _ h, ih]

theorem dedupGo_mem (key : List Cell → List Cell) :
    ∀ (l seen : List (List Cell)) (r : List Cell),
      r ∈ dedupGo key seen l ↔
        ∃ l1 l2, l = l1 ++ r :: l2 ∧ key r ∉ seen ∧ ∀ x ∈ l1, key x ≠ key r := by
  intro l
  induction l with
  | nil =>
    intro seen r
    simp only [dedupGo, List.not_mem_nil, false_iff]
    rintro ⟨l1, l2, h, -, -⟩
    exact List.cons_ne_nil r l2 (List.append_eq_nil.mp h.symm).2
  | cons x xs ih =>
    intro seen r
    by_cases hx : key x ∈ seen
    · rw [show dedupGo key seen (x :: xs) = dedupGo key seen xs from by simp [dedupGo, hx]]
      rw [ih seen r]
      constructor
      · rintro ⟨l1, l2, rfl, hns, hne⟩
        refine ⟨x :: l1, l2, rfl, hns, ?_⟩
        intro y hy
        rcases List.mem_cons.mp hy with rfl | hy'
        · intro he; exact hns (he ▸ hx)
        · exact hne y hy'
      · rintro ⟨l1, l2, heq, hns, hne⟩
        cases l1 with
        | nil =>
          simp only [List.nil_append, List.cons.injEq] at heq
          obtain ⟨rfl, rfl⟩ := heq
          exact absurd hx hns
        | cons a l1' =>
          simp only [List.cons_append, List.cons.injEq] at heq
          obtain ⟨rfl, heq'⟩ := heq
          exact ⟨l1', l2, heq', hns, fun y hy => hne y (List.mem_cons_of_mem _ hy)⟩
    · rw [dedupGo_cons key seen x xs hx]
      constructor
      · intro hm
        rcases List.mem_cons.mp hm with rfl | hm'
        · exact ⟨[], xs, rfl, hx, by simp⟩
        · obtain ⟨l1, l2, rfl, hns, hne⟩ := (ih (key x :: seen) r).mp hm'
          refine ⟨x :: l1, l2, rfl, ?_, ?_⟩
          · intro hmem; exact hns (List.mem_cons_of_mem _ hmem)
          · intro y hy
            rcases List.mem_cons.mp hy with rfl | hy'
            · intro he; exact hns (he ▸ List.mem_cons_self _ _)
            · exact hne y hy'
      · rintro ⟨l1, l2, heq, hns, hne⟩
        cases l1 with
        | nil =>
          simp only [List.nil_append, List.cons.injEq] at heq
          obtain ⟨rfl, rfl⟩ := heq
          exact List.mem_cons_self _ _
        | cons a l1' =>
          simp only [List.cons_append, List.cons.injEq] at heq
          obtain ⟨rfl, heq'⟩ := heq
          refine List.mem_cons_of_mem _ ((ih (key x :: seen) r).mpr
            ⟨l1', l2, heq', ?_, fun y hy => hne y (List.mem_cons_of_mem _ hy)⟩)
          intro hmem
          rcases List.mem_cons.mp hmem with he | hmem'
          · exact hne x (List.mem_cons_self _ _) he.symm
          · exact hns hmem'

theorem encontrarGo_eq_none (p : String) :
    ∀ (files : List FileDesc) (acc : Option (FileDesc × Date)),
      encontrarGo p files acc = none →
      acc = none ∧ ∀ g ∈ files, candDate p g.name = none := by
  intro files
  induction files with
  | nil =>
    intro acc h
    cases acc with
    | none => exact ⟨rfl, by simp⟩
    | some gd => simp [encontrarGo] at h
  | cons f0 rest ih =>
    intro acc h
    cases hc : candDate p f0.name with
    | none =>
      rw [show encontrarGo p (f0 :: rest) acc = encontrarGo p rest acc from by
        simp [encontrarGo, hc]] at h
      obtain ⟨ha, hall⟩ := ih acc h
      refine ⟨ha, ?_⟩
      intro g hg
      rcases List.mem_cons.mp hg with rfl | hg'
      · exact hc
      · exact hall g hg'
    | some d0 =>
      cases acc with
      | none =>
        rw [show encontrarGo p (f0 :: rest) none = encontrarGo p rest (some (f0, d0)) from by
          simp [encontrarGo, hc]] at h
        obtain ⟨ha, -⟩ := ih _ h
        cases ha
      | some gd =>
        obtain ⟨g, dg⟩ := gd
        by_cases hlt : Date.lt dg d0 = true
        · rw [show encontrarGo p (f0 :: rest) (some (g, dg)) = encontrarGo p rest (some (f0, d0)) from by
            simp [encontrarGo, hc, hlt]] at h
          obtain ⟨ha, -⟩ := ih _ h
          cases ha
        · rw [show encontrarGo p (f0 :: rest) (some (g, dg)) = encontrarGo p rest (some (g, dg)) from by
            simp [encontrarGo, hc, hlt]] at h
          obtain ⟨ha, -⟩ := ih _ h
          cases ha

theorem encontrarGo_eq_some (p : String) :
    ∀ (files : List FileDesc) (acc : Option (FileDesc × Date)) (f : FileDesc),
      encontrarGo p files acc = some f →
      ((∃ d, acc = some (f, d) ∧
          ∀ g ∈ files, ∀ d', candDate p g.name = some d' → Date.lt d d' = false) ∨
       (∃ df l1 l2, candDate p f.name = some df ∧ files = l1 ++ f :: l2 ∧
          (∀ g0 d0, acc = some (g0, d0) → Date.lt d0 df = true) ∧
          (∀ g ∈ l1, ∀ d', candDate p g.name = some d' → Date.lt d' df = true) ∧
          (∀ g ∈ l2, ∀ d', candDate p g.name = some d' → Date.lt df d' = false))) := by
  intro files
  induction files with
  | nil =>
    intro acc f h
    left
    cases acc with
    | none => simp [encontrarGo] at h
    | some gd =>
      obtain ⟨g, d⟩ := gd
      simp only [encontrarGo, Option.map_some', Option.some.injEq] at h
      subst h
      exact ⟨d, rfl, by simp⟩
  | cons f0 rest ih =>
    intro acc f h
    cases hc : candDate p f0.name with
    | none =>
      rw [show encontrarGo p (f0 :: rest) acc = encontrarGo p rest acc from by
        simp [encontrarGo, hc]] at h
      rcases ih acc f h with ⟨d, ha, hall⟩ | ⟨df, l1, l2, hdf, hsplit, hacc, hl1, hl2⟩
      · left
        refine ⟨d, ha, ?_⟩
        intro g hg d' hg'
        rcases List.mem_cons.mp hg with hgf | hg2
        · rw [hgf, hc] at hg'; cases hg'
        · exact hall g hg2 d' hg'
      · right
        refine ⟨df, f0 :: l1, l2, hdf, by simp [hsplit], hacc, ?_, hl2⟩
        intro g hg d' hg'
        rcases List.mem_cons.mp hg with hgf | hg2
        · rw [hgf, hc] at hg'; cases hg'
        · exact hl1 g hg2 d' hg'
    | some d0 =>
      cases acc with
      | none =>
        rw [show encontrarGo p (f0 :: rest) none = encontrarGo p rest (some (f0, d0)) from by
          simp [encontrarGo, hc]] at h
        rcases ih _ f h with ⟨d, ha, hall⟩ | ⟨df, l1, l2, hdf, hsplit, hacc, hl1, hl2⟩
        · right
          simp only [Option.some.injEq, Prod.mk.injEq] at ha
          refine ⟨d, [], rest, ?_, ?_, ?_, by simp, ?_⟩
          · rw [← ha.1, ← ha.2]; exact hc
          · rw [ha.1]; rfl
          · rintro g0 dd h'; cases h'
          · intro g hg d' hg'
            exact hall g hg d' hg'
        · right
          refine ⟨df, f0 :: l1, l2, hdf, by simp [hsplit], ?_, ?_, hl2⟩
          · rintro g0 dd h'; cases h'
          · intro g hg d' hg'
            rcases List.mem_cons.mp hg with hgf | hg2
            · rw [hgf, hc] at hg'
              simp only [Option.some.injEq] at hg'
              rw [← hg']
              exact hacc f0 d0 rfl
            · exact hl1 g hg2 d' hg'
      | some gd =>
        obtain ⟨g, dg⟩ := gd
        by_cases hlt : Date.lt dg d0 = true
        · rw [show encontrarGo p (f0 :: rest) (some (g, dg)) = encontrarGo p rest (some (f0, d0)) from by
            simp [encontrarGo, hc, hlt]] at h
          rcases ih _ f h with ⟨d, ha, hall⟩ | ⟨df, l1, l2, hdf, hsplit, hacc, hl1, hl2⟩
          · right
            simp only [Option.some.injEq, Prod.mk.injEq] at ha
            refine ⟨d, [], rest, ?_, ?_, ?_, by simp, ?_⟩
            · rw [← ha.1, ← ha.2]; exact hc
            · rw [ha.1]; rfl
            · rintro g0 dd h'
              simp only [Option.some.injEq, Prod.mk.injEq] at h'
              rw [← h'.2, ← ha.2]
              exact hlt
            · intro g' hg' d' hgd
              exact hall g' hg' d' hgd
          · right
            refine ⟨df, f0 :: l1, l2, hdf, by simp [hsplit], ?_, ?_, hl2⟩
            · rintro g0 dd h'
              simp only [Option.some.injEq, Prod.mk.injEq] at h'
              rw [← h'.2]
              exact Date.lt_trans hlt (hacc f0 d0 rfl)
            · intro g' hg' d' hgd
              rcases List.mem_cons.mp hg' with hgf | hg2
              · rw [hgf, hc] at hgd
                simp only [Option.some.injEq] at hgd
                rw [← hgd]
                exact hacc f0 d0 rfl
              · exact hl1 g' hg2 d' hgd
        · have hlt' : Date.lt dg d0 = false := by
            revert hlt; cases Date.lt dg d0 <;> simp
          rw [show encontrarGo p (f0 :: rest) (some (g, dg)) = encontrarGo p rest (some (g, dg)) from by
            simp [encontrarGo, hc, hlt']] at h
          rcases ih _ f h with ⟨d, ha, hall⟩ | ⟨df, l1, l2, hdf, hsplit, hacc, hl1, hl2⟩
          · left
            refine ⟨d, ha, ?_⟩
            intro g' hg' d' hgd
            simp only [Option.some.injEq, Prod.mk.injEq] at ha
            rcases List.mem_cons.mp hg' with hgf | hg2
            · rw [hgf, hc] at hgd
              simp only [Option.some.injEq] at hgd
              rw [← hgd, ← ha.2]
              exact hlt'
            · exact hall g' hg2 d' hgd
          · right
            refine ⟨df, f0 :: l1, l2, hdf, by simp [hsplit], ?_, ?_, hl2⟩
            · rintro g0 dd h'
              simp only [Option.some.injEq, Prod.mk.injEq] at h'
              rw [← h'.2]
              exact hacc g dg rfl
            · intro g' hg' d' hgd
              rcases List.mem_cons.mp hg' with hgf | hg2
              · rw [hgf, hc] at hgd
                simp only [Option.some.injEq] at hgd
                rw [← hgd]
                exact Date.not_lt_lt hlt' (hacc g dg rfl)
              · exact hl1 g' hg2 d' hgd

/-- C4, counterexample: the claim says a candidate is valid iff exactly the
first 10 characters of the remainder after stripping the prefix parse as a
DD.MM.YYYY date.  The code additionally whitespace-strips the remainder
(`resto = nome[len(prefixo):].strip()`), so a name whose remainder has a
leading space is accepted by the code while the first 10 characters of its
unstripped remainder (" 01.03.202") do not parse. -/
theorem claim_C4_counterexample :
    candDate BUSCA_PREFIX arquivoC4.name = some ⟨2024, 3, 1⟩ ∧
    claimCandDateC4 BUSCA_PREFIX arquivoC4.name = none ∧
    encontrar_busca_mais_recente [arquivoC4] BUSCA_PREFIX = some arquivoC4 := by
  refine ⟨by decide, by decide, by decide⟩

/-- C4, amended: a candidate is a valid dated candidate iff its name starts
with the prefix and exactly the first 10 characters of the
whitespace-stripped remainder parse as a DD.MM.YYYY date; a candidate whose
test fails is silently skipped (removing it from the head of the input
changes nothing and no error is raised). -/
theorem claim_C4_amended :
    (∀ (p : String) (f : FileDesc) (files : List FileDesc),
       candDate p f.name = none →
       encontrar_busca_mais_recente (f :: files) p = encontrar_busca_mais_recente files p) ∧
    (∀ (p n : String),
       (candDate p n).isSome ↔
         (pyStartsWith n p = true ∧
          (parseDataList ((pyStripList (n.data.drop p.data.length)).take 10)).isSome)) := by
  constructor
  · intro p f files h
    simp [encontrar_busca_mais_recente, encontrarGo, h]
  · intro p n
    by_cases hp : pyStartsWith n p = true
    · simp [candDate, hp]
    · simp [candDate, hp]

/-- C4, witness: the amended skip property at a concrete invalid candidate. -/
theorem claim_C4_witness :
    encontrar_busca_mais_recente [arquivoC4inv] BUSCA_PREFIX =
      encontrar_busca_mais_recente [] BUSCA_PREFIX :=
  claim_C4_amended.1 BUSCA_PREFIX arquivoC4inv [] (by decide)

/-- C5: whenever the selector returns a candidate, that candidate is a
valid dated candidate, no valid candidate has a strictly greater date, and
every valid candidate strictly before it in input order has a strictly
smaller date (so on ties the first-seen candidate wins); when the selector
returns nothing there is no valid candidate at all; and on the three
example names with the BUSCA prefix it selects the 15.03.2024 entry. -/
theorem claim_C5 :
    (∀ (files : List FileDesc) (p : String) (f : FileDesc),
       encontrar_busca_mais_recente files p = some f →
       ∃ df l1 l2, candDate p f.name = some df ∧ files = l1 ++ f :: l2 ∧
         (∀ g ∈ files, ∀ d', candDate p g.name = some d' → Date.lt df d' = false) ∧
         (∀ g ∈ l1, ∀ d', candDate p g.name = some d' → Date.lt d' df = true)) ∧
    (∀ (files : List FileDesc) (p : String),
       encontrar_busca_mais_recente files p = none →
       ∀ g ∈ files, candDate p g.name = none) ∧
    encontrar_busca_mais_recente [arquivoC5a, arquivoC5b, arquivoC5c] BUSCA_PREFIX =
      some arquivoC5b := by
  refine ⟨?_, ?_, by decide⟩
  · intro files p f h
    rcases encontrarGo_eq_some p files none f h with ⟨d, ha, -⟩ |
      ⟨df, l1, l2, hdf, hsplit, -, hl1, hl2⟩
    · cases ha
    · refine ⟨df, l1, l2, hdf, hsplit, ?_, hl1⟩
      intro g hg d' hg'
      rw [hsplit] at hg
      rcases List.mem_append.mp hg with hgl | hgr
      · exact Date.lt_asymm (hl1 g hgl d' hg')
      · rcases List.mem_cons.mp hgr with hgf | hg2
        · rw [hgf, hdf] at hg'
          simp only [Option.some.injEq] at hg'
          rw [← hg']
          exact Date.lt_irrefl df
        · exact hl2 g hg2 d' hg'
  · intro files p h g hg
    exact (encontrarGo_eq_none p files none h).2 g hg

/-- C5, witness: the general selector property instantiated at the three
example candidates, with the hypothesis discharged by the example itself. -/
theorem claim_C5_witness :
    ∃ df l1 l2, candDate BUSCA_PREFIX arquivoC5b.name = some df ∧
      [arquivoC5a, arquivoC5b, arquivoC5c] = l1 ++ arquivoC5b :: l2 ∧
      (∀ g ∈ [arquivoC5a, arquivoC5b, arquivoC5c], ∀ d',
         candDate BUSCA_PREFIX g.name = some d' → Date.lt df d' = false) ∧
      (∀ g ∈ l1, ∀ d', candDate BUSCA_PREFIX g.name = some d' → Date.lt d' df = true) :=
  claim_C5.1 [arquivoC5a, arquivoC5b, arquivoC5c] BUSCA_PREFIX arquivoC5b claim_C5.2.2

theorem startsY_py_spec (c : Cell) :
    pyStartsWith (pyCellStr c) "Y" = pyStartsWith (specCellStr c) "Y" := by
  cases c <;> rfl

/-- C2: the filter's output is the header rows unchanged followed by
exactly those data rows whose column-13 cell, coerced to text with
absent/null cells coercing to the empty string, starts with "Y", in their
original relative order; the reported count is the number of data rows
removed.  This holds although the code renders null cells as "nan" rather
than "": neither "nan" nor "" starts with "Y". -/
theorem claim_C2 :
    ∀ T : Table,
      filtrarBanco T =
        (⟨T.rows.take HEADER_ROWS_BANCO ++
            (T.rows.drop HEADER_ROWS_BANCO).filter
              (fun r => pyStartsWith (specCellStr (r.getD 13 Cell.empty)) "Y"),
          T.width⟩,
         ((T.rows.drop HEADER_ROWS_BANCO).filter
             (fun r => !(pyStartsWith (specCellStr (r.getD 13 Cell.empty)) "Y"))).length) := by
  intro T
  simp only [filtrarBanco, startsY_py_spec]

/-- C9: any data row surviving the filter has a non-null cell at column 13
(equivalently: every data row whose column-13 cell is null/absent is
removed), because the code's `astype(str)` renders a null cell as the text
"nan", which does not start with "Y". -/
theorem claim_C9 :
    (∀ (T : Table) (r : List Cell),
       r ∈ (filtrarBanco T).1.rows.drop HEADER_ROWS_BANCO →
       r.getD 13 Cell.empty ≠ Cell.empty) ∧
    pyCellStr Cell.empty = "nan" := by
  refine ⟨?_, rfl⟩
  intro T r hr
  cases hT : T.rows with
  | nil => simp [filtrarBanco, hT, HEADER_ROWS_BANCO] at hr
  | cons x xs =>
    simp only [filtrarBanco, hT, HEADER_ROWS_BANCO, List.take_succ_cons, List.take_zero,
      List.drop_succ_cons, List.drop_zero, List.singleton_append, List.drop_one,
      List.tail_cons] at hr
    have hkeep := List.of_mem_filter hr
    intro he
    rw [he] at hkeep
    exact absurd hkeep (by decide)

/-- C9, witness: in a concrete master, the surviving data row indeed has a
non-null column-13 cell. -/
theorem claim_C9_witness :
    linhaC9.getD 13 Cell.empty ≠ Cell.empty :=
  claim_C9.1 tabelaC9 linhaC9 (by decide)

/-- C6: every row of the extractor's output (rows from offset 5 on,
columns 1 to 35, with "" normalised to the missing marker) has at least
one non-empty cell; the output is a sublist of the sliced region (rows are
kept in full and source order is preserved); and every region row with at
least one non-empty cell is kept. -/
theorem claim_C6 :
    ∀ T : Table,
      (∀ r ∈ (extrairHoje T).rows, ∃ c ∈ r, c ≠ Cell.empty) ∧
      (extrairHoje T).rows.Sublist (regiaoHoje T) ∧
      (∀ r ∈ regiaoHoje T, (∃ c ∈ r, c ≠ Cell.empty) → r ∈ (extrairHoje T).rows) := by
  intro T
  refine ⟨?_, List.filter_sublist _, ?_⟩
  · intro r hr
    have hall := List.of_mem_filter hr
    simp only [Bool.not_eq_true'] at hall
    obtain ⟨c, hc, hcne⟩ := List.all_eq_false.mp hall
    exact ⟨c, hc, fun he => hcne (by simp [he])⟩
  · intro r hr hne
    refine List.mem_filter.mpr ⟨hr, ?_⟩
    simp only [Bool.not_eq_true']
    obtain ⟨c, hc, hcne⟩ := hne
    exact List.all_eq_false.mpr ⟨c, hc, by simp [hcne]⟩

/-- C6, witness: the kept row of a concrete daily file has a non-empty
cell. -/
theorem claim_C6_witness :
    ∃ c ∈ [Cell.text "y"], c ≠ Cell.empty :=
  (claim_C6 tabelaC6).1 [Cell.text "y"] (by decide)

theorem dedupDF_eq (D : DF) :
    dedupDF D =
      (if ((D.rows.drop HEADER_ROWS_BANCO).isEmpty || D.cols.isEmpty) = true then some D
       else if ((D.cols.filter (fun l => !(EXCLUIDAS.contains l))).isEmpty = true) then none
       else some ⟨D.cols,
         D.rows.take HEADER_ROWS_BANCO ++
           dedupGo (chaveDF D.cols) [] (D.rows.drop HEADER_ROWS_BANCO)⟩) := rfl

theorem dedupDF_fix :
    ∀ (D E : DF), dedupDF D = some E → dedupDF E = some E := by
  intro D E h
  by_cases hg : ((D.rows.drop HEADER_ROWS_BANCO).isEmpty || D.cols.isEmpty) = true
  · have hD : dedupDF D = some D := by rw [dedupDF_eq, if_pos hg]
    rw [hD] at h
    injection h with h2
    subst h2
    exact hD
  · have hg2 := hg
    simp only [Bool.or_eq_true, not_or, Bool.not_eq_true] at hg2
    obtain ⟨hd, hcols⟩ := hg2
    by_cases hs : (D.cols.filter (fun l => !(EXCLUIDAS.contains l))).isEmpty = true
    · have hnone : dedupDF D = none := by rw [dedupDF_eq, if_neg hg, if_pos hs]
      rw [hnone] at h
      cases h
    · have hsome : dedupDF D = some ⟨D.cols,
          D.rows.take HEADER_ROWS_BANCO ++
            dedupGo (chaveDF D.cols) [] (D.rows.drop HEADER_ROWS_BANCO)⟩ := by
        rw [dedupDF_eq, if_neg hg, if_neg hs]
      rw [hsome] at h
      injection h with h2
      subst h2
      cases hrows : D.rows with
      | nil => rw [hrows] at hd; simp [HEADER_ROWS_BANCO] at hd
      | cons r0 rest =>
        cases hrest : rest with
        | nil => rw [hrows, hrest] at hd; simp [HEADER_ROWS_BANCO] at hd
        | cons x xs =>
          simp only [HEADER_ROWS_BANCO, List.take_succ_cons, List.take_zero,
            List.drop_succ_cons, List.drop_zero, List.singleton_append]
          rw [dedupGo_cons (chaveDF D.cols) [] x xs (by simp)]
          rw [dedupDF_eq]
          simp only [HEADER_ROWS_BANCO, List.take_succ_cons, List.take_zero,
            List.drop_succ_cons, List.drop_zero, List.isEmpty_cons, Bool.false_or,
            List.singleton_append]
          rw [if_neg (by simp [hcols]), if_neg hs]
          rw [← dedupGo_cons (chaveDF D.cols) [] x xs (by simp),
            dedupGo_idem (chaveDF D.cols) (x :: xs) []]

/-- C7: deduplication is idempotent: applying the dedup stage to its own
output yields the same result as applying it once (as partial functions:
a second application changes nothing when the first returns, and both fail
alike when the stage raises). -/
theorem claim_C7 :
    ∀ D : DF, (dedupDF D).bind dedupDF = dedupDF D := by
  intro D
  cases h : dedupDF D with
  | none => rfl
  | some E => simpa [Option.bind] using dedupDF_fix D E h

/-- C1, counterexample: two distinct data rows whose identity keys are
equal under the textual coercion of section 4.2 (the number 1 and the text
"1" both render as "1") are both kept by the code's deduplication, because
`drop_duplicates` compares raw cell values, not coerced text.  So "treated
as duplicates iff textually-coerced keys are equal" is false on the code. -/
theorem claim_C1_counterexample :
    dedupDF dfC1 = some dfC1 ∧
    claimChaveC1 dfC1.cols linhaC1num = claimChaveC1 dfC1.cols linhaC1txt ∧
    linhaC1num ≠ linhaC1txt ∧
    linhaC1num ∈ dfC1.rows.drop HEADER_ROWS_BANCO ∧
    linhaC1txt ∈ dfC1.rows.drop HEADER_ROWS_BANCO ∧
    chaveDF dfC1.cols linhaC1num ≠ chaveDF dfC1.cols linhaC1txt := by
  refine ⟨by decide, by decide, by decide, by decide, by decide, by decide⟩

/-- C1, amended: whenever the dedup stage succeeds on a frame with at least
one column, a data row survives iff no earlier data row has an equal
identity key, where the identity key is the tuple of raw cell values at the
non-excluded column labels (value equality, not textual coercion). -/
theorem claim_C1_amended :
    ∀ (D E : DF) (r : List Cell), D.cols ≠ [] → dedupDF D = some E →
      (r ∈ E.rows.drop HEADER_ROWS_BANCO ↔
        ∃ l1 l2, D.rows.drop HEADER_ROWS_BANCO = l1 ++ r :: l2 ∧
          ∀ x ∈ l1, chaveDF D.cols x ≠ chaveDF D.cols r) := by
  intro D E r hcne h
  have hcols : D.cols.isEmpty = false := by
    cases hcl : D.cols with
    | nil => exact absurd hcl hcne
    | cons a as => simp
  by_cases hg : ((D.rows.drop HEADER_ROWS_BANCO).isEmpty || D.cols.isEmpty) = true
  · have hdados : (D.rows.drop HEADER_ROWS_BANCO).isEmpty = true := by
      rcases Bool.or_eq_true_iff.mp hg with h1 | h1
      · exact h1
      · rw [hcols] at h1; cases h1
    have hD : dedupDF D = some D := by rw [dedupDF_eq, if_pos hg]
    rw [hD] at h
    injection h with h2
    subst h2
    rw [List.isEmpty_iff.mp hdados]
    simp only [List.not_mem_nil, false_iff]
    rintro ⟨l1, l2, heq, -⟩
    exact List.cons_ne_nil r l2 (List.append_eq_nil.mp heq.symm).2
  · by_cases hs : (D.cols.filter (fun l => !(EXCLUIDAS.contains l))).isEmpty = true
    · have hnone : dedupDF D = none := by rw [dedupDF_eq, if_neg hg, if_pos hs]
      rw [hnone] at h
      cases h
    · have hsome : dedupDF D = some ⟨D.cols,
          D.rows.take HEADER_ROWS_BANCO ++
            dedupGo (chaveDF D.cols) [] (D.rows.drop HEADER_ROWS_BANCO)⟩ := by
        rw [dedupDF_eq, if_neg hg, if_neg hs]
      rw [hsome] at h
      injection h with h2
      subst h2
      have hg2 := hg
      simp only [Bool.or_eq_true, not_or, Bool.not_eq_true] at hg2
      obtain ⟨hd, -⟩ := hg2
      cases hrows : D.rows with
      | nil => rw [hrows] at hd; simp [HEADER_ROWS_BANCO] at hd
      | cons r0 rest =>
        simp only [HEADER_ROWS_BANCO, List.take_succ_cons, List.take_zero,
          List.drop_succ_cons, List.drop_zero, List.singleton_append]
        rw [dedupGo_mem (chaveDF D.cols) rest [] r]
        constructor
        · rintro ⟨l1, l2, heq, -, hne⟩
          exact ⟨l1, l2, heq, hne⟩
        · rintro ⟨l1, l2, heq, hne⟩
          exact ⟨l1, l2, heq, by simp, hne⟩

/-- C1, witness: the amended characterization instantiated at the concrete
frame of the counterexample, for its first data row. -/
theorem claim_C1_witness :
    linhaC1num ∈ dfC1.rows.drop HEADER_ROWS_BANCO ↔
      ∃ l1 l2, dfC1.rows.drop HEADER_ROWS_BANCO = l1 ++ linhaC1num :: l2 ∧
        ∀ x ∈ l1, chaveDF dfC1.cols x ≠ chaveDF dfC1.cols linhaC1num :=
  claim_C1_amended dfC1 dfC1 linhaC1num (by decide) (by decide)

/-- C3: evaluation of the append stage at a failing input.  With a 1-row,
3-column master and a 1-row, 5-column delta, the widening loop
`df_banco[df_banco.shape[1] + i] = pd.NA` re-reads the growing `shape[1]`
each iteration and thus creates the column labels 3 and 5 instead of 3 and
4; the label-aligned concat then produces 6 columns (labels 0,1,2,3,5,4),
not max(3,5) = 5, and the delta's fifth cell lands in the extra trailing
column while an all-empty column sits at position 4.  This contradicts the
claimed "column count equal to max" and "only empty cells appended at the
high end". -/
theorem claim_C3_bug :
    (appendBlock tabelaC3Master tabelaC3Delta).cols = [0, 1, 2, 3, 5, 4] ∧
    (appendBlock tabelaC3Master tabelaC3Delta).cols.length ≠
      max tabelaC3Master.width tabelaC3Delta.width ∧
    (appendBlock tabelaC3Master tabelaC3Delta).rows.length =
      tabelaC3Master.rows.length + tabelaC3Delta.rows.length ∧
    (appendBlock tabelaC3Master tabelaC3Delta).rows =
      [[Cell.text "a", Cell.text "b", Cell.text "c", Cell.empty, Cell.empty, Cell.empty],
       [Cell.text "d", Cell.text "e", Cell.text "f", Cell.text "g", Cell.empty, Cell.text "h"]] := by
  refine ⟨by decide, by decide, by decide, by decide⟩

/-- C10: the extracted delta indeed never has more than 35 columns, but the
merged column count can exceed max(master width, 35): with a 14-column
filtered master and a 36-column daily file (so a 35-column delta), the
buggy widening labels make the merged frame have 45 columns. -/
theorem claim_C10_bug :
    (∀ T : Table, (extrairHoje T).width ≤ 35) ∧
    (extrairHoje tabelaC10Hoje).width = 35 ∧
    (appendBlock tabelaC10Banco (extrairHoje tabelaC10Hoje)).cols.length = 45 ∧
    ¬((appendBlock tabelaC10Banco (extrairHoje tabelaC10Hoje)).cols.length ≤
        max tabelaC10Banco.width 35) := by
  refine ⟨?_, by decide, by decide, by decide⟩
  intro T
  simp only [extrairHoje]
  exact Nat.min_le_left _ _

/-- C8: when the loaded master has fewer than 14 columns the pipeline stops
with the schema error raised at line 240, and no table is ever handed to
the save step. -/
theorem claim_C8 :
    ∀ (banco hoje : Table), banco.width < 14 →
      runPipeline banco hoje = Except.error msgColunaN ∧
      savedTable banco hoje = none := by
  intro banco hoje hw
  have h13 : banco.width ≤ 13 := by omega
  constructor
  · simp [runPipeline, h13]
  · simp [savedTable, runPipeline, h13, Except.toOption]

/-- C8, witness: the schema failure at a concrete narrow master. -/
theorem claim_C8_witness :
    runPipeline ⟨[], 0⟩ ⟨[], 0⟩ = Except.error msgColunaN ∧
    savedTable ⟨[], 0⟩ ⟨[], 0⟩ = none :=
  claim_C8 ⟨[], 0⟩ ⟨[], 0⟩ (by decide)
